import Mathlib

/-!
# Xray repository configuration resource

A shallow embedding of `pkg/xray/resource_xray_repository_config.go` and of the
fixtures of `pkg/xray/resource_xray_report_test.go`.

* Go structs become Lean structures with the same field names.
* A pointer (`*RepoConfiguration`, `*PathsConfiguration`, `*schema.Set`) is an
  `Option`: `none` is the nil pointer.
* A Go slice is a `List`; the nil slice and the empty slice are both `[]`.
* A Go `int` is an `Int`: the code only copies these values, it never does
  arithmetic on them.
* A run-time panic (an index out of range) is the `none` of an outer `Option`.
* The values held by `schema.ResourceData` are `map[string]interface{}` trees in
  Go.  Here every block is a record whose fields are the keys its schema
  declares, with the Go type its schema declares, so the type assertions of the
  source (`data["include"].(string)`) are field projections.
* The HTTP client is a function from the calls made so far and the call being
  made to the outcome of that call; every operation returns the calls it made.
* `tflog` output is not part of the model.
-/

namespace Xray

/-! ## Wire objects (lines 16-44) -/

/-- The struct `RepoConfiguration`. -/
structure RepoConfiguration where
  VulnContextualAnalysis : Bool
  RetentionInDays : Int
deriving DecidableEq, Repr

/-- The struct `Pattern`. -/
structure Pattern where
  Include : String
  Exclude : String
  IndexNewArtifacts : Bool
  RetentionInDays : Int
deriving DecidableEq, Repr

/-- The struct `AllOtherArtifacts`. -/
structure AllOtherArtifacts where
  IndexNewArtifacts : Bool
  RetentionInDays : Int
deriving DecidableEq, Repr

/-- The struct `PathsConfiguration`. -/
structure PathsConfiguration where
  Patterns : List Pattern
  OtherArtifacts : AllOtherArtifacts
deriving DecidableEq, Repr

/-- The struct `RepositoryConfiguration`; the two pointer fields are options. -/
structure RepositoryConfiguration where
  RepoName : String
  RepoConfig : Option RepoConfiguration
  RepoPathsConfig : Option PathsConfiguration
deriving DecidableEq, Repr

/-! ## Configuration tree held by `schema.ResourceData` (schema, lines 47-148) -/

/-- One element of the `config` set: keys `vuln_contextual_analysis` (TypeBool)
and `retention_in_days` (TypeInt). -/
structure ConfigBlock where
  vuln_contextual_analysis : Bool
  retention_in_days : Int
deriving DecidableEq, Repr

/-- One element of the `pattern` list: keys `include`, `exclude` (TypeString),
`index_new_artifacts` (TypeBool) and `retention_in_days` (TypeInt).  The key
`include` is the field `include_`, the bare word being reserved in Lean. -/
structure PatternBlock where
  include_ : String
  exclude : String
  index_new_artifacts : Bool
  retention_in_days : Int
deriving DecidableEq, Repr

/-- One element of the `all_other_artifacts` set. -/
structure AllOtherArtifactsBlock where
  index_new_artifacts : Bool
  retention_in_days : Int
deriving DecidableEq, Repr

/-- One element of the `paths_config` set: the `pattern` list and the elements
of the `all_other_artifacts` set, in the order `Set.List()` returns them. -/
structure PathsConfigBlock where
  pattern : List PatternBlock
  all_other_artifacts : List AllOtherArtifactsBlock
deriving DecidableEq, Repr

/-- The part of `schema.ResourceData` the resource uses: the identifier and the
three top-level keys.  A set-typed key holds the elements of its set in
`Set.List()` order; a block that was not supplied is the empty set. -/
structure ResourceData where
  id : String
  repo_name : String
  config : List ConfigBlock
  paths_config : List PathsConfigBlock
deriving DecidableEq, Repr

namespace ResourceData

/-- The method `d.Id()`. -/
def Id (d : ResourceData) : String := d.id

/-- The method `d.SetId(v)`. -/
def SetId (d : ResourceData) (v : String) : ResourceData := { d with id := v }

/-- The call `d.GetString("repo_name", false)` of the shared `util.ResourceData`:
the string when `GetOk` finds a non-zero value, the empty string otherwise, so in
both cases the stored string. -/
def GetString_repo_name (d : ResourceData) : String := d.repo_name

/-- The call `s.GetOk("config")`: the value and whether it exists and differs
from the zero value of its type; for a set, whether the set has an element. -/
def GetOk_config (d : ResourceData) : List ConfigBlock × Bool :=
  (d.config, !d.config.isEmpty)

/-- The call `s.GetOk("paths_config")`. -/
def GetOk_paths_config (d : ResourceData) : List PathsConfigBlock × Bool :=
  (d.paths_config, !d.paths_config.isEmpty)

/-- The call `s.Get("config").(*schema.Set)`: `Get` always returns a non-nil set. -/
def Get_config (d : ResourceData) : Option (List ConfigBlock) := some d.config

/-- The call `s.Get("paths_config").(*schema.Set)`. -/
def Get_paths_config (d : ResourceData) : Option (List PathsConfigBlock) :=
  some d.paths_config

/-- The call `d.Set("repo_name", v)`.  `Set` returns an error only for a value
that does not fit the schema type of the key, which the typed argument excludes. -/
def Set_repo_name (d : ResourceData) (v : String) : ResourceData :=
  { d with repo_name := v }

/-- The call `d.Set("config", v)` with a `[]interface{}` of block maps. -/
def Set_config (d : ResourceData) (v : List ConfigBlock) : ResourceData :=
  { d with config := v }

/-- The call `d.Set("paths_config", v)`. -/
def Set_paths_config (d : ResourceData) (v : List PathsConfigBlock) : ResourceData :=
  { d with paths_config := v }

end ResourceData

/-! ## Unpack (lines 150-223) -/

/-- The closure `unpackPattern`: one `Pattern` per element, appended in order. -/
def unpackPattern (s : List PatternBlock) : List Pattern :=
  s.foldl
    (fun patterns data =>
      patterns ++ [{ Include := data.include_
                     Exclude := data.exclude
                     IndexNewArtifacts := data.index_new_artifacts
                     RetentionInDays := data.retention_in_days }])
    []

/-- The closure `unpackAllOtherArtifacts`: the zero struct for a nil set, else the
fields of `config.List()[0]`; `none` is the panic of indexing an empty list. -/
def unpackAllOtherArtifacts (config : Option (List AllOtherArtifactsBlock)) :
    Option AllOtherArtifacts :=
  match config with
  | none => some { IndexNewArtifacts := false, RetentionInDays := 0 }
  | some l =>
    match l[0]? with
    | none => none
    | some data =>
      some { IndexNewArtifacts := data.index_new_artifacts
             RetentionInDays := data.retention_in_days }

/-- The closure `unpackRepoPathConfig`.  The outer option is the panic, the inner
one the returned pointer.  `config.List()` is called on the receiver without a
nil test, so a nil set is a nil dereference. -/
def unpackRepoPathConfig (config : Option (List PathsConfigBlock)) :
    Option (Option PathsConfiguration) :=
  match config with
  | none => none
  | some configList =>
    if configList.length = 0 then
      some none
    else
      match configList[0]? with
      | none => none
      | some m =>
        match unpackAllOtherArtifacts (some m.all_other_artifacts) with
        | none => none
        | some otherArtifacts =>
          some (some { Patterns := unpackPattern m.pattern
                       OtherArtifacts := otherArtifacts })

/-- The closure `unpackRepoConfig`: a pointer to a fresh struct, filled from
`config.List()[0]` when the set is not nil. -/
def unpackRepoConfig (config : Option (List ConfigBlock)) :
    Option (Option RepoConfiguration) :=
  match config with
  | none => some (some { VulnContextualAnalysis := false, RetentionInDays := 0 })
  | some l =>
    match l[0]? with
    | none => none
    | some data =>
      some (some { VulnContextualAnalysis := data.vuln_contextual_analysis
                   RetentionInDays := data.retention_in_days })

/-- The closure `unpackRepositoryConfig`. -/
def unpackRepositoryConfig (s : ResourceData) : Option RepositoryConfiguration :=
  let repositoryConfig : RepositoryConfiguration :=
    { RepoName := s.GetString_repo_name, RepoConfig := none, RepoPathsConfig := none }
  let step1 : Option RepositoryConfiguration :=
    if s.GetOk_config.2 then
      match unpackRepoConfig s.Get_config with
      | none => none
      | some p => some { repositoryConfig with RepoConfig := p }
    else some repositoryConfig
  match step1 with
  | none => none
  | some repositoryConfig =>
    if s.GetOk_paths_config.2 then
      match unpackRepoPathConfig s.Get_paths_config with
      | none => none
      | some p => some { repositoryConfig with RepoPathsConfig := p }
    else some repositoryConfig

/-! ## Pack (lines 225-289) -/

/-- The closure `packGeneralRepoConfig`. -/
def packGeneralRepoConfig (repoConfig : Option RepoConfiguration) : List ConfigBlock :=
  match repoConfig with
  | none => []
  | some repoConfig =>
    let m : ConfigBlock :=
      { vuln_contextual_analysis := repoConfig.VulnContextualAnalysis
        retention_in_days := repoConfig.RetentionInDays }
    [m]

/-- The closure `packAllOtherArtifacts`. -/
def packAllOtherArtifacts (otherArtifacts : AllOtherArtifacts) :
    List AllOtherArtifactsBlock :=
  let m : AllOtherArtifactsBlock :=
    { index_new_artifacts := otherArtifacts.IndexNewArtifacts
      retention_in_days := otherArtifacts.RetentionInDays }
  [m]

/-- The closure `packPatterns`: one map per pattern, appended in order. -/
def packPatterns (patterns : List Pattern) : List PatternBlock :=
  patterns.foldl
    (fun ps pattern =>
      ps ++ [{ include_ := pattern.Include
               exclude := pattern.Exclude
               index_new_artifacts := pattern.IndexNewArtifacts
               retention_in_days := pattern.RetentionInDays }])
    []

/-- The closure `packRepoPathsConfigList`. -/
def packRepoPathsConfigList (repoPathsConfig : Option PathsConfiguration) :
    List PathsConfigBlock :=
  match repoPathsConfig with
  | none => []
  | some repoPathsConfig =>
    let m : PathsConfigBlock :=
      { pattern := packPatterns repoPathsConfig.Patterns
        all_other_artifacts := packAllOtherArtifacts repoPathsConfig.OtherArtifacts }
    [m]

/-! ## Diagnostics (`terraform-plugin-sdk/v2/diag`) -/

namespace diag

/-- The type `diag.Severity` with its two constants. -/
inductive Severity where
  | Error
  | Warning
deriving DecidableEq, Repr

/-- The struct `diag.Diagnostic`, without the attribute path the code never sets. -/
structure Diagnostic where
  Severity : Severity
  Summary : String
  Detail : String
deriving DecidableEq, Repr

/-- The slice type `diag.Diagnostics`; `[]` is the nil the code returns on success. -/
abbrev Diagnostics := List Diagnostic

/-- The function `diag.FromErr`: nil for a nil error, else one diagnostic of
severity `Error` whose summary is the text of the error. -/
def FromErr (err : Option String) : Diagnostics :=
  match err with
  | none => []
  | some e => [{ Severity := Severity.Error, Summary := e, Detail := "" }]

end diag

/-- The closure `packRepositoryConfig`: three `d.Set` calls.  Each `Set` gets a
value of the type its key declares, so none of the three error returns is taken
and the function returns nil diagnostics. -/
def packRepositoryConfig (repositoryConfig : RepositoryConfiguration) (d : ResourceData) :
    ResourceData × diag.Diagnostics :=
  let d := d.Set_repo_name repositoryConfig.RepoName
  let d := d.Set_config (packGeneralRepoConfig repositoryConfig.RepoConfig)
  let d := d.Set_paths_config (packRepoPathsConfigList repositoryConfig.RepoPathsConfig)
  (d, [])

/-! ## HTTP client (`resty`) -/

/-- A request the resource sends.  `Get` carries the URL template and the value
given to `SetPathParam("repo_name", _)`; `Put` the URL and the struct given to
`SetBody`. -/
inductive HttpCall where
  | Get (url : String) (repo_name : String)
  | Put (url : String) (body : RepositoryConfiguration)
deriving DecidableEq, Repr

/-- The part of `*resty.Response` the code reads. -/
structure Response where
  StatusCode : Int
deriving DecidableEq, Repr

/-- What a request returns: the response pointer, the error (its text) and, for a
request with `SetResult`, the value the client decoded into the target, `none`
when it wrote nothing. -/
structure HttpResult where
  resp : Option Response
  err : Option String
  result : Option RepositoryConfiguration
deriving DecidableEq, Repr

/-- The client `m.(*resty.Client)`: the outcome of a call, given the calls made
before it.  Any deterministic remote, stateful or not, is such a function. -/
abbrev Client := List HttpCall → HttpCall → HttpResult

/-- The constant `http.StatusOK`. -/
def StatusOK : Int := 200

/-- The state a lifecycle function leaves: the resource data, the diagnostics it
returns and the calls made so far. -/
structure Outcome where
  d : ResourceData
  diags : diag.Diagnostics
  calls : List HttpCall
deriving DecidableEq, Repr

/-! ## Lifecycle (lines 291-335) -/

/-- The closure `resourceXrayRepositoryConfigRead`.  `calls` are the calls made
before the function runs. -/
def resourceXrayRepositoryConfigRead (d : ResourceData) (m : Client)
    (calls : List HttpCall) : Outcome :=
  let call := HttpCall.Get "xray/api/v1/repos_config/{repo_name}" d.Id
  let r := m calls call
  let repositoryConfig : RepositoryConfiguration :=
    r.result.getD { RepoName := "", RepoConfig := none, RepoPathsConfig := none }
  let calls := calls ++ [call]
  match r.err with
  | some err =>
    let notOK : Bool :=
      match r.resp with
      | none => false
      | some resp => resp.StatusCode != StatusOK
    let d := if notOK then d.SetId "" else d
    { d := d, diags := diag.FromErr (some err), calls := calls }
  | none =>
    let res := packRepositoryConfig repositoryConfig d
    { d := res.1, diags := res.2, calls := calls }

/-- The closure `resourceXrayRepositoryConfigCreate`, also the update function.
`none` is a panic inside `unpackRepositoryConfig`. -/
def resourceXrayRepositoryConfigCreate (d : ResourceData) (m : Client)
    (calls : List HttpCall) : Option Outcome :=
  match unpackRepositoryConfig d with
  | none => none
  | some repositoryConfig =>
    let call := HttpCall.Put "xray/api/v1/repos_config" repositoryConfig
    let r := m calls call
    let calls := calls ++ [call]
    match r.err with
    | some err => some { d := d, diags := diag.FromErr (some err), calls := calls }
    | none =>
      let d := d.SetId repositoryConfig.RepoName
      some (resourceXrayRepositoryConfigRead d m calls)

/-- The closure `resourceXrayRepositoryConfigDelete`. -/
def resourceXrayRepositoryConfigDelete (d : ResourceData) (_m : Client)
    (calls : List HttpCall) : Outcome :=
  let d := d.SetId ""
  { d := d
    diags :=
      [{ Severity := diag.Severity.Warning
         Summary := "No delete functionality provided by API"
         Detail := "Delete function will return a warning and remove the Id from the Terraform state. The actual repository configuration will remain unchanged." }]
    calls := calls }

/-! ## JSON body (`encoding/json` with the struct tags of lines 16-44) -/

/-- A JSON value; an object is the list of its members in field order. -/
inductive Json where
  | null
  | bool (b : Bool)
  | num (n : Int)
  | str (s : String)
  | arr (xs : List Json)
  | obj (kvs : List (String × Json))

namespace Json

/-- The member of an object with the given key, if the value is an object that
has one. -/
def get? (j : Json) (key : String) : Option Json :=
  match j with
  | obj kvs => (kvs.find? (fun kv => kv.1 == key)).map (fun kv => kv.2)
  | _ => none

/-- The element of an array at the given index. -/
def idx? (j : Json) (i : Nat) : Option Json :=
  match j with
  | arr xs => xs[i]?
  | _ => none

/-- Whether an object has a member with the given key. -/
def hasKey (j : Json) (key : String) : Bool := (j.get? key).isSome

/-- One step of a path into a JSON value: a member name or an array index. -/
inductive Step where
  | key (k : String)
  | index (i : Nat)

/-- The value a path leads to, as in `repo_paths_config.patterns[0].include`. -/
def at? (j : Json) (path : List Step) : Option Json :=
  match path with
  | [] => some j
  | Step.key k :: rest =>
    match j.get? k with
    | none => none
    | some v => v.at? rest
  | Step.index i :: rest =>
    match j.idx? i with
    | none => none
    | some v => v.at? rest

end Json

/-- JSON of a `RepoConfiguration`: both fields are tagged `omitempty`, so `false`
and `0` are left out. -/
def RepoConfiguration.Marshal (c : RepoConfiguration) : Json :=
  Json.obj
    ((if c.VulnContextualAnalysis then
        [("vuln_contextual_analysis", Json.bool c.VulnContextualAnalysis)] else []) ++
     (if c.RetentionInDays != 0 then
        [("retention_in_days", Json.num c.RetentionInDays)] else []))

/-- JSON of a `Pattern`: no field is tagged `omitempty`. -/
def Pattern.Marshal (p : Pattern) : Json :=
  Json.obj
    [("include", Json.str p.Include),
     ("exclude", Json.str p.Exclude),
     ("index_new_artifacts", Json.bool p.IndexNewArtifacts),
     ("retention_in_days", Json.num p.RetentionInDays)]

/-- JSON of an `AllOtherArtifacts`. -/
def AllOtherArtifacts.Marshal (a : AllOtherArtifacts) : Json :=
  Json.obj
    [("index_new_artifacts", Json.bool a.IndexNewArtifacts),
     ("retention_in_days", Json.num a.RetentionInDays)]

/-- JSON of a `PathsConfiguration`: `patterns` is left out when the slice is
empty; `omitempty` has no effect on the struct-typed `all_other_artifacts`. -/
def PathsConfiguration.Marshal (c : PathsConfiguration) : Json :=
  Json.obj
    ((if c.Patterns.isEmpty then []
      else [("patterns", Json.arr (c.Patterns.map Pattern.Marshal))]) ++
     [("all_other_artifacts", c.OtherArtifacts.Marshal)])

/-- JSON of a `RepositoryConfiguration`: a nil pointer tagged `omitempty` is
left out. -/
def RepositoryConfiguration.Marshal (c : RepositoryConfiguration) : Json :=
  Json.obj
    ([("repo_name", Json.str c.RepoName)] ++
     (match c.RepoConfig with
      | none => []
      | some rc => [("repo_config", rc.Marshal)]) ++
     (match c.RepoPathsConfig with
      | none => []
      | some pc => [("repo_paths_config", pc.Marshal)]))

/-! ## Schema validity (schema, lines 47-148) -/

/-- What the schema asks of a `pattern` element: `include` is not empty
(`StringIsNotEmpty`) and `retention_in_days` is at least 0 (`IntAtLeast(0)`). -/
def PatternBlock.Valid (p : PatternBlock) : Prop :=
  p.include_ ≠ "" ∧ 0 ≤ p.retention_in_days

/-- What the schema asks of a `paths_config` element: at least one `pattern`
(`MinItems: 1`), each valid, and exactly one `all_other_artifacts` element
(`MinItems: 1`, `MaxItems: 1`) with a retention of at least 0. -/
def PathsConfigBlock.Valid (b : PathsConfigBlock) : Prop :=
  1 ≤ b.pattern.length ∧ (∀ p ∈ b.pattern, p.Valid) ∧
  b.all_other_artifacts.length = 1 ∧
  (∀ a ∈ b.all_other_artifacts, 0 ≤ a.retention_in_days)

/-- A configuration the declared schema accepts: `repo_name` is not empty, `config`
and `paths_config` have at most one element (`MaxItems: 1`), every element is
valid, and `config` is not supplied together with `paths_config`
(`ConflictsWith`). -/
def SchemaValid (d : ResourceData) : Prop :=
  d.repo_name ≠ "" ∧
  d.config.length ≤ 1 ∧ (∀ c ∈ d.config, 0 ≤ c.retention_in_days) ∧
  d.paths_config.length ≤ 1 ∧ (∀ b ∈ d.paths_config, b.Valid) ∧
  (d.config = [] ∨ d.paths_config = [])

instance (p : PatternBlock) : Decidable p.Valid := by
  unfold PatternBlock.Valid; infer_instance

instance (b : PathsConfigBlock) : Decidable b.Valid := by
  unfold PathsConfigBlock.Valid; infer_instance

instance (d : ResourceData) : Decidable (SchemaValid d) := by
  unfold SchemaValid; infer_instance

/-- The `Pattern` that `unpackPattern` builds from one list element. -/
def PatternBlock.toPattern (data : PatternBlock) : Pattern :=
  { Include := data.include_
    Exclude := data.exclude
    IndexNewArtifacts := data.index_new_artifacts
    RetentionInDays := data.retention_in_days }

/-- The map that `packPatterns` builds from one pattern. -/
def Pattern.toBlock (pattern : Pattern) : PatternBlock :=
  { include_ := pattern.Include
    exclude := pattern.Exclude
    index_new_artifacts := pattern.IndexNewArtifacts
    retention_in_days := pattern.RetentionInDays }

/-- The scenario of the specification: one pattern and the catch-all rule. -/
def scenarioPathsConfig : ResourceData :=
  { id := ""
    repo_name := "repo"
    config := []
    paths_config :=
      [{ pattern :=
           [{ include_ := "pattern1", exclude := "pattern12",
              index_new_artifacts := true, retention_in_days := 90 }]
         all_other_artifacts := [{ index_new_artifacts := true, retention_in_days := 90 }] }] }

/-- A configuration with a flat `config` block. -/
def scenarioConfig : ResourceData :=
  { id := ""
    repo_name := "repo"
    config := [{ vuln_contextual_analysis := true, retention_in_days := 90 }]
    paths_config := [] }

/-- A state of the resource after a create: the id is the repository name. -/
def stateRepo : ResourceData :=
  { id := "repo"
    repo_name := "repo"
    config := [{ vuln_contextual_analysis := true, retention_in_days := 90 }]
    paths_config := [] }

/-- A client whose every call returns status 404 and a nil error, as a resty
client does that has no hook turning an error status into an error. -/
def clientNotFoundNoError : Client :=
  fun _ _ => { resp := some { StatusCode := 404 }, err := none, result := none }

/-- A client whose every call returns status 404 together with an error. -/
def clientNotFound : Client :=
  fun _ _ => { resp := some { StatusCode := 404 }, err := some "404 Not Found", result := none }

/-- A client whose every call fails to connect: resty returns the error together
with a response that carries no status, so `StatusCode()` is 0. -/
def clientUnreachable : Client :=
  fun _ _ =>
    { resp := some { StatusCode := 0 }, err := some "connection refused", result := none }

/-- A client whose every call returns status 500 and a nil error, as a resty
client does that has no hook turning an error status into an error. -/
def clientServerErrorNoError : Client :=
  fun _ _ => { resp := some { StatusCode := 500 }, err := none, result := none }

/-- A client that accepts every PUT and answers every GET with a flat
configuration for the repository asked for. -/
def clientOK : Client :=
  fun _ call =>
    match call with
    | HttpCall.Put _ _ => { resp := some { StatusCode := 200 }, err := none, result := none }
    | HttpCall.Get _ name =>
      { resp := some { StatusCode := 200 }
        err := none
        result :=
          some { RepoName := name
                 RepoConfig := some { VulnContextualAnalysis := true, RetentionInDays := 90 }
                 RepoPathsConfig := none } }

/-! ## Declared schema and its validation (lines 47-148, `helper/schema`) -/

namespace schema

/-- The constants of `schema.ValueType` the resource uses. -/
inductive ValueType where
  | TypeBool
  | TypeInt
  | TypeString
  | TypeList
  | TypeSet
deriving DecidableEq, Repr

/-- The fields of `schema.Schema` that the top-level keys set and that the
validation of one key against the others reads.  `Type_` is the field `Type`. -/
structure Schema where
  Type_ : ValueType
  Required : Bool
  Optional : Bool
  MaxItems : Nat
  ConflictsWith : List String
deriving DecidableEq, Repr

end schema

/-- The top-level entries of `repositoryConfigSchema`: `config` declares
`ConflictsWith: []string{"paths_config"}`, `paths_config` declares none. -/
def repositoryConfigSchema : List (String × schema.Schema) :=
  [("repo_name",
      { Type_ := schema.ValueType.TypeString, Required := true, Optional := false,
        MaxItems := 0, ConflictsWith := [] }),
   ("config",
      { Type_ := schema.ValueType.TypeSet, Required := false, Optional := true,
        MaxItems := 1, ConflictsWith := ["paths_config"] }),
   ("paths_config",
      { Type_ := schema.ValueType.TypeSet, Required := false, Optional := true,
        MaxItems := 1, ConflictsWith := [] })]

/-- The lookup `c.Get(k)` of the configuration under validation: whether the key
is supplied.  A block key is supplied when its set has an element. -/
def ResourceData.isSet (c : ResourceData) (k : String) : Bool :=
  if k = "repo_name" then c.repo_name != ""
  else if k = "config" then !c.config.isEmpty
  else if k = "paths_config" then !c.paths_config.isEmpty
  else false

/-- The SDK function `validateConflictingAttributes`: the error for the first key
of `ConflictsWith` that the configuration supplies; the text is that of
`fmt.Errorf("%q: conflicts with %s", k, conflictingKey)`. -/
def validateConflictingAttributes (k : String) (s : schema.Schema) (c : ResourceData) :
    Option String :=
  match s.ConflictsWith.find? (fun conflictingKey => c.isSet conflictingKey) with
  | none => none
  | some conflictingKey => some ("\"" ++ k ++ "\": conflicts with " ++ conflictingKey)

/-- The SDK method `schemaMap.validate` for one key, up to its conflict check: a
key that is not supplied yields an error only when it is required; a supplied key
is checked against its `ConflictsWith`.  The type check that follows
(`validateType`) is the predicate `SchemaValid`. -/
def validate (k : String) (s : schema.Schema) (c : ResourceData) : diag.Diagnostics :=
  if !c.isSet k then
    if s.Required then
      [{ Severity := diag.Severity.Error
         Summary := "Missing required argument"
         Detail := "The argument \"" ++ k ++ "\" is required, but no definition was found." }]
    else []
  else
    match validateConflictingAttributes k s c with
    | some msg =>
      [{ Severity := diag.Severity.Error
         Summary := "Conflicting configuration arguments"
         Detail := msg }]
    | none => []

/-- The SDK method `schemaMap.Validate`: the diagnostics of every key, in the
order in which the keys are visited (Go visits a map in no fixed order). -/
def Validate (sm : List (String × schema.Schema)) (c : ResourceData) : diag.Diagnostics :=
  sm.flatMap (fun ks => validate ks.1 ks.2 c)

/-- The order in which the host runtime, which is not part of the repository,
runs the two steps: it validates the configuration against the declared schema
and calls Create only when validation reports no error (specification: "Must run
before any transformation or network call"; "Create: validate, unpack, PUT"). -/
def validateThenCreate (sm : List (String × schema.Schema)) (d : ResourceData) (m : Client)
    (calls : List HttpCall) : Option Outcome :=
  let diags := Validate sm d
  if diags.any (fun x => x.Severity == diag.Severity.Error) then
    some { d := d, diags := diags, calls := calls }
  else
    resourceXrayRepositoryConfigCreate d m calls

/-- Whether the text `pat` occurs in `msg`. -/
def containsText (msg pat : String) : Prop := pat.data <:+: msg.data

instance (msg pat : String) : Decidable (containsText msg pat) := by
  unfold containsText; infer_instance

/-- The diagnostic of the conflict between `config` and `paths_config`. -/
def conflictDiagnostic : diag.Diagnostic :=
  { Severity := diag.Severity.Error
    Summary := "Conflicting configuration arguments"
    Detail := "\"config\": conflicts with paths_config" }

/-- A configuration that supplies both `config` and `paths_config`. -/
def scenarioBoth : ResourceData :=
  { id := ""
    repo_name := "repo"
    config := [{ vuln_contextual_analysis := true, retention_in_days := 90 }]
    paths_config :=
      [{ pattern :=
           [{ include_ := "pattern1", exclude := "pattern12",
              index_new_artifacts := true, retention_in_days := 90 }]
         all_other_artifacts := [{ index_new_artifacts := true, retention_in_days := 90 }] }] }

/-! ## Report filters (`resource_xray_report_test.go`) -/

/-- One block of a report configuration: its name and the keys supplied in it.
The fixtures are transcribed by the keys they supply; the values play no part in
a check of presence. -/
structure FilterBlock where
  name : String
  keys : List String
deriving DecidableEq, Repr

/-- The `filters` tree of a report configuration, as the list of its blocks. -/
abbrev FilterFields := List FilterBlock

/-- The fixture `licenseFilterFields` (lines 18-30). -/
def licenseFilterFields : FilterFields :=
  [{ name := "filters"
     keys := ["component", "artifact", "unknown", "unrecognized", "license_names",
              "scan_date"] },
   { name := "scan_date", keys := ["start", "end"] }]

/-- The fixture `opRisksFilterFields` (lines 32-42). -/
def opRisksFilterFields : FilterFields :=
  [{ name := "filters", keys := ["component", "artifact", "risks", "scan_date"] },
   { name := "scan_date", keys := ["start", "end"] }]

/-- The fixture `violationsFilterFields` (lines 44-73); `cve` and
`license_patterns` are commented out in the source. -/
def violationsFilterFields : FilterFields :=
  [{ name := "filters"
     keys := ["type", "watch_names", "component", "artifact", "policy_names", "severities",
              "updated", "security_filters", "license_filters"] },
   { name := "updated", keys := ["start", "end"] },
   { name := "security_filters"
     keys := ["issue_id", "cvss_score", "summary_contains", "has_remediation"] },
   { name := "cvss_score", keys := ["min_score", "max_score"] },
   { name := "license_filters", keys := ["unknown", "unrecognized", "license_names"] }]

/-- The fixture `vulnerabilitiesFilterFields` (lines 75-94). -/
def vulnerabilitiesFilterFields : FilterFields :=
  [{ name := "filters"
     keys := ["vulnerable_component", "impacted_artifact", "has_remediation", "cve",
              "cvss_score", "published", "scan_date"] },
   { name := "cvss_score", keys := ["min_score", "max_score"] },
   { name := "published", keys := ["start", "end"] },
   { name := "scan_date", keys := ["start", "end"] }]

/-- The `filterFieldsConflict` of `TestAccBadLicenseFilter` (lines 276-289). -/
def badLicenseFilterFields : FilterFields :=
  [{ name := "filters"
     keys := ["component", "artifact", "unknown", "unrecognized", "license_names",
              "license_patterns", "scan_date"] },
   { name := "scan_date", keys := ["start", "end"] }]

/-- The `filterFieldsConflict` of `TestAccBadViolationsFilter` (lines 305-335). -/
def badViolationsFilterFields : FilterFields :=
  [{ name := "filters"
     keys := ["type", "watch_names", "watch_patterns", "component", "artifact",
              "policy_names", "severities", "updated", "security_filters",
              "license_filters"] },
   { name := "updated", keys := ["start", "end"] },
   { name := "security_filters"
     keys := ["cve", "issue_id", "cvss_score", "summary_contains", "has_remediation"] },
   { name := "cvss_score", keys := ["min_score", "max_score"] },
   { name := "license_filters"
     keys := ["unknown", "unrecognized", "license_names", "license_patterns"] }]

/-- The `filterFieldsConflict` of `TestAccBadVulnerabilitiesFilter` (lines 350-371). -/
def badVulnerabilitiesFilterFields : FilterFields :=
  [{ name := "filters"
     keys := ["vulnerable_component", "impacted_artifact", "has_remediation", "cve",
              "issue_id", "severities", "cvss_score", "published", "scan_date"] },
   { name := "cvss_score", keys := ["min_score", "max_score"] },
   { name := "published", keys := ["start", "end"] },
   { name := "scan_date", keys := ["start", "end"] }]

/-- One acceptance test on report filters: the resource, the filter fixture and
the `ExpectError` pattern of its step (`none` when the step must apply). -/
structure FilterTest where
  name : String
  resourceName : String
  filterFields : FilterFields
  expectError : Option String
deriving DecidableEq, Repr

/-- The test `TestAccLicensesReport` (lines 200-212). -/
def TestAccLicensesReport : FilterTest :=
  { name := "TestAccLicensesReport", resourceName := "xray_licenses_report"
    filterFields := licenseFilterFields, expectError := none }

/-- The test `TestAccOperationalRisksReport` (lines 214-226). -/
def TestAccOperationalRisksReport : FilterTest :=
  { name := "TestAccOperationalRisksReport", resourceName := "xray_operational_risks_report"
    filterFields := opRisksFilterFields, expectError := none }

/-- The test `TestAccViolationsReport` (lines 228-240). -/
def TestAccViolationsReport : FilterTest :=
  { name := "TestAccViolationsReport", resourceName := "xray_violations_report"
    filterFields := violationsFilterFields, expectError := none }

/-- The test `TestAccVulnerabilitiesReport` (lines 242-254). -/
def TestAccVulnerabilitiesReport : FilterTest :=
  { name := "TestAccVulnerabilitiesReport", resourceName := "xray_vulnerabilities_report"
    filterFields := vulnerabilitiesFilterFields, expectError := none }

/-- The test `TestAccBadLicenseFilter` (lines 271-298). -/
def TestAccBadLicenseFilter : FilterTest :=
  { name := "TestAccBadLicenseFilter", resourceName := "xray_licenses_report"
    filterFields := badLicenseFilterFields, expectError := some "Only one of" }

/-- The test `TestAccBadViolationsFilter` (lines 300-343). -/
def TestAccBadViolationsFilter : FilterTest :=
  { name := "TestAccBadViolationsFilter", resourceName := "xray_violations_report"
    filterFields := badViolationsFilterFields, expectError := some "Only one of" }

/-- The test `TestAccBadVulnerabilitiesFilter` (lines 345-379). -/
def TestAccBadVulnerabilitiesFilter : FilterTest :=
  { name := "TestAccBadVulnerabilitiesFilter", resourceName := "xray_vulnerabilities_report"
    filterFields := badVulnerabilitiesFilterFields, expectError := some "Only one of" }

/-- The acceptance tests of the file that exercise report filters. -/
def filterTests : List FilterTest :=
  [TestAccLicensesReport, TestAccOperationalRisksReport, TestAccViolationsReport,
   TestAccVulnerabilitiesReport, TestAccBadLicenseFilter, TestAccBadViolationsFilter,
   TestAccBadVulnerabilitiesFilter]

/-- Whether a validator (the error it returns, `none` for none) meets a test: a
step without `ExpectError` must apply, a step with one must fail with a matching
message. -/
def testPasses (v : FilterFields → Option String) (t : FilterTest) : Bool :=
  match t.expectError, v t.filterFields with
  | none, none => true
  | some pat, some msg => decide (containsText msg pat)
  | _, _ => false

/-- The members of a group that a block supplies. -/
def suppliedMembers (group : List String) (b : FilterBlock) : List String :=
  group.filter (fun k => b.keys.contains k)

/-- A configuration supplies two members of a group when one of its blocks does. -/
def suppliesBoth (groups : List (List String)) (cfg : FilterFields) : Prop :=
  ∃ b ∈ cfg, ∃ g ∈ groups, 2 ≤ (suppliedMembers g b).length

instance (groups : List (List String)) (cfg : FilterFields) :
    Decidable (suppliesBoth groups cfg) := by
  unfold suppliesBoth; infer_instance

/-- The supplied members of every group of which a block supplies two or more. -/
def exclusiveViolations (groups : List (List String)) (cfg : FilterFields) :
    List (List String) :=
  cfg.flatMap (fun b =>
    (groups.map (fun g => suppliedMembers g b)).filter (fun ms => decide (2 ≤ ms.length)))

/-- Modelled from the spec: the constraint validator of the report resources,
whose code is not under `src/`.  "For every declared exclusive group, count how
many of its members are [supplied]; if more than one, fail with an error naming
the group and listing its members"; the message contains "Only one of" followed
by the conflicting field names.  The table of groups is a parameter. -/
def validateExclusiveGroups (groups : List (List String)) (cfg : FilterFields) :
    Option String :=
  match exclusiveViolations groups cfg with
  | [] => none
  | ms :: _ => some ("Only one of " ++ ", ".intercalate ms ++ " can be set")

/-- What creating a report leaves: the diagnostics and the bodies sent. -/
structure ReportOutcome where
  diags : diag.Diagnostics
  posted : List FilterFields
deriving DecidableEq, Repr

/-- Modelled from the spec: creation of a report, whose code is not under `src/`:
"validate, unpack, PUT/POST to the resource endpoint"; a validation error is
returned before any call.  `post` is the remote: the error it answers with. -/
def createReport (groups : List (List String)) (cfg : FilterFields)
    (post : FilterFields → Option String) : ReportOutcome :=
  match validateExclusiveGroups groups cfg with
  | some msg => { diags := diag.FromErr (some msg), posted := [] }
  | none => { diags := diag.FromErr (post cfg), posted := [cfg] }

/-- The exclusive pairs as the claim lists them: `license_names` with
`license_patterns`, `watch_names` with `watch_patterns`, `cve` or `issue_id` with
`cvss_score`, `severities` with `cvss_score`. -/
def claimedGroups : List (List String) :=
  [["license_names", "license_patterns"], ["watch_names", "watch_patterns"],
   ["cve", "cvss_score"], ["issue_id", "cvss_score"], ["severities", "cvss_score"]]

/-- The report resources the claim speaks of. -/
def claimedResources : List String :=
  ["xray_licenses_report", "xray_violations_report", "xray_vulnerabilities_report"]

/-- The fixtures that the tests of a resource expect to apply without error. -/
def positiveFixtures (resourceName : String) : List FilterFields :=
  (filterTests.filter
    (fun t => t.resourceName == resourceName && t.expectError.isNone)).map
    (fun t => t.filterFields)

/-- The pairs of the claim left for a resource once the pairs that a passing test
of that resource supplies together are taken out. -/
def amendedGroups (resourceName : String) : List (List String) :=
  claimedGroups.filter (fun g =>
    (positiveFixtures resourceName).all (fun cfg => !decide (suppliesBoth [g] cfg)))

/-- A configuration whose `config` block holds only zero values: `false` and `0`. -/
def scenarioZeroConfig : ResourceData :=
  { id := ""
    repo_name := "repo"
    config := [{ vuln_contextual_analysis := false, retention_in_days := 0 }]
    paths_config := [] }

/-- A configuration that breaks `MinItems: 1` of `all_other_artifacts`: the
`paths_config` block has a pattern and an empty `all_other_artifacts` set. -/
def scenarioNoOtherArtifacts : ResourceData :=
  { id := ""
    repo_name := "repo"
    config := []
    paths_config :=
      [{ pattern :=
           [{ include_ := "pattern1", exclude := "pattern12",
              index_new_artifacts := true, retention_in_days := 90 }]
         all_other_artifacts := [] }] }

/-! ## Closed forms used in the proofs -/

/-- What `unpackRepositoryConfig` returns for a `config` set of at most one
element. -/
def unpackedRepoConfig (l : List ConfigBlock) : Option RepoConfiguration :=
  match l with
  | [] => none
  | data :: _ =>
    some { VulnContextualAnalysis := data.vuln_contextual_analysis
           RetentionInDays := data.retention_in_days }

/-- What `unpackRepositoryConfig` returns for a `paths_config` set whose first
element has a first `all_other_artifacts` element. -/
def unpackedRepoPathsConfig (l : List PathsConfigBlock) : Option PathsConfiguration :=
  match l with
  | [] => none
  | m :: _ =>
    match m.all_other_artifacts with
    | [] => none
    | a :: _ =>
      some { Patterns := m.pattern.map PatternBlock.toPattern
             OtherArtifacts :=
               { IndexNewArtifacts := a.index_new_artifacts
                 RetentionInDays := a.retention_in_days } }

/-! ## Lemmas on unpack and pack -/

theorem foldl_append_singleton {α β : Type} (f : α → β) (l : List α) (init : List β) :
    l.foldl (fun acc x => acc ++ [f x]) init = init ++ l.map f := by
  induction l generalizing init with
  | nil => simp
  | cons x xs ih => simp [List.foldl_cons, ih]

theorem unpackPattern_eq_map (s : List PatternBlock) :
    unpackPattern s = s.map PatternBlock.toPattern := by
  have h := foldl_append_singleton PatternBlock.toPattern s []
  simpa [unpackPattern, PatternBlock.toPattern] using h

theorem packPatterns_eq_map (patterns : List Pattern) :
    packPatterns patterns = patterns.map Pattern.toBlock := by
  have h := foldl_append_singleton Pattern.toBlock patterns []
  simpa [packPatterns, Pattern.toBlock] using h

theorem packPatterns_unpackPattern (s : List PatternBlock) :
    packPatterns (unpackPattern s) = s := by
  rw [unpackPattern_eq_map, packPatterns_eq_map, List.map_map]
  have h : (Pattern.toBlock ∘ PatternBlock.toPattern) = id := by
    funext p; rfl
  rw [h, List.map_id]

theorem unpackPattern_packPatterns (patterns : List Pattern) :
    unpackPattern (packPatterns patterns) = patterns := by
  rw [packPatterns_eq_map, unpackPattern_eq_map, List.map_map]
  have h : (PatternBlock.toPattern ∘ Pattern.toBlock) = id := by
    funext p; rfl
  rw [h, List.map_id]

/-- Unpack does not panic when every supplied `paths_config` element has an
`all_other_artifacts` element, and then returns the three fields below. -/
theorem unpackRepositoryConfig_eq (d : ResourceData)
    (h : ∀ b ∈ d.paths_config.head?, b.all_other_artifacts ≠ []) :
    unpackRepositoryConfig d =
      some { RepoName := d.repo_name
             RepoConfig := unpackedRepoConfig d.config
             RepoPathsConfig := unpackedRepoPathsConfig d.paths_config } := by
  obtain ⟨id, rn, cfg, pcs⟩ := d
  cases cfg with
  | nil =>
    cases pcs with
    | nil => rfl
    | cons m ms =>
      have hm : m.all_other_artifacts ≠ [] := h m (by simp)
      obtain ⟨pat, aoa⟩ := m
      cases aoa with
      | nil => exact absurd rfl hm
      | cons a as =>
        simp [unpackRepositoryConfig, ResourceData.GetOk_config, ResourceData.GetOk_paths_config,
          ResourceData.Get_paths_config, ResourceData.GetString_repo_name, unpackRepoPathConfig,
          unpackAllOtherArtifacts, unpackedRepoConfig, unpackedRepoPathsConfig,
          unpackPattern_eq_map]
  | cons c cs =>
    cases pcs with
    | nil =>
      simp [unpackRepositoryConfig, ResourceData.GetOk_config, ResourceData.GetOk_paths_config,
        ResourceData.Get_config, ResourceData.GetString_repo_name, unpackRepoConfig,
        unpackedRepoConfig, unpackedRepoPathsConfig]
    | cons m ms =>
      have hm : m.all_other_artifacts ≠ [] := h m (by simp)
      obtain ⟨pat, aoa⟩ := m
      cases aoa with
      | nil => exact absurd rfl hm
      | cons a as =>
        simp [unpackRepositoryConfig, ResourceData.GetOk_config, ResourceData.GetOk_paths_config,
          ResourceData.Get_config, ResourceData.Get_paths_config,
          ResourceData.GetString_repo_name, unpackRepoConfig, unpackRepoPathConfig,
          unpackAllOtherArtifacts, unpackedRepoConfig, unpackedRepoPathsConfig,
          unpackPattern_eq_map]

theorem SchemaValid.head_all_other_artifacts {d : ResourceData} (hv : SchemaValid d) :
    ∀ b ∈ d.paths_config.head?, b.all_other_artifacts ≠ [] := by
  intro b hb
  have hmem : b ∈ d.paths_config := List.mem_of_mem_head? hb
  have hb1 := (hv.2.2.2.2.1 b hmem).2.2.1
  intro h0
  rw [h0] at hb1
  simp at hb1

theorem pack_unpackedRepoConfig (l : List ConfigBlock) (h : l.length ≤ 1) :
    packGeneralRepoConfig (unpackedRepoConfig l) = l := by
  match l, h with
  | [], _ => rfl
  | [c], _ => rfl
  | _ :: _ :: _, h => simp at h

theorem pack_unpackedRepoPathsConfig (l : List PathsConfigBlock) (h : l.length ≤ 1)
    (ha : ∀ b ∈ l, b.all_other_artifacts.length = 1) :
    packRepoPathsConfigList (unpackedRepoPathsConfig l) = l := by
  match l, h with
  | [], _ => rfl
  | [m], _ =>
    have hm := ha m (by simp)
    obtain ⟨pat, aoa⟩ := m
    match aoa, hm with
    | [a], _ =>
      have hp : packPatterns (pat.map PatternBlock.toPattern) = pat := by
        rw [← unpackPattern_eq_map]; exact packPatterns_unpackPattern pat
      simp [unpackedRepoPathsConfig, packRepoPathsConfigList, packAllOtherArtifacts, hp]
  | _ :: _ :: _, h => simp at h

theorem marshal_get_repo_config (w : RepositoryConfiguration) :
    w.Marshal.get? "repo_config" = w.RepoConfig.map RepoConfiguration.Marshal := by
  obtain ⟨n, rc, pc⟩ := w
  cases rc <;> cases pc <;> simp [RepositoryConfiguration.Marshal, Json.get?, List.find?]

theorem marshal_get_repo_paths_config (w : RepositoryConfiguration) :
    w.Marshal.get? "repo_paths_config" = w.RepoPathsConfig.map PathsConfiguration.Marshal := by
  obtain ⟨n, rc, pc⟩ := w
  cases rc <;> cases pc <;> simp [RepositoryConfiguration.Marshal, Json.get?, List.find?]

theorem marshal_get_patterns (pc : PathsConfiguration) (h : pc.Patterns ≠ []) :
    pc.Marshal.get? "patterns" = some (Json.arr (pc.Patterns.map Pattern.Marshal)) := by
  obtain ⟨ps, oa⟩ := pc
  cases ps with
  | nil => exact absurd rfl h
  | cons q qs => simp [PathsConfiguration.Marshal, Json.get?, List.find?]

theorem marshal_get_all_other_artifacts (pc : PathsConfiguration) :
    pc.Marshal.get? "all_other_artifacts" = some pc.OtherArtifacts.Marshal := by
  obtain ⟨ps, oa⟩ := pc
  cases ps <;> simp [PathsConfiguration.Marshal, Json.get?, List.find?]

theorem marshal_at_pattern_field (w : RepositoryConfiguration) (pc : PathsConfiguration)
    (hw : w.RepoPathsConfig = some pc) (i : Nat) (q : Pattern)
    (hq : pc.Patterns[i]? = some q) :
    w.Marshal.at? [Json.Step.key "repo_paths_config", Json.Step.key "patterns",
        Json.Step.index i, Json.Step.key "include"] = some (Json.str q.Include) ∧
    w.Marshal.at? [Json.Step.key "repo_paths_config", Json.Step.key "patterns",
        Json.Step.index i, Json.Step.key "exclude"] = some (Json.str q.Exclude) ∧
    w.Marshal.at? [Json.Step.key "repo_paths_config", Json.Step.key "patterns",
        Json.Step.index i, Json.Step.key "index_new_artifacts"] =
      some (Json.bool q.IndexNewArtifacts) ∧
    w.Marshal.at? [Json.Step.key "repo_paths_config", Json.Step.key "patterns",
        Json.Step.index i, Json.Step.key "retention_in_days"] =
      some (Json.num q.RetentionInDays) := by
  have hne : pc.Patterns ≠ [] := by
    intro h0
    rw [h0] at hq
    simp at hq
  have h1 := marshal_get_repo_paths_config w
  rw [hw, Option.map_some'] at h1
  have h2 := marshal_get_patterns pc hne
  have h3 : (Json.arr (pc.Patterns.map Pattern.Marshal)).idx? i = some q.Marshal := by
    simp [Json.idx?, List.getElem?_map, hq]
  refine ⟨?_, ?_, ?_, ?_⟩ <;>
  · simp only [Json.at?, h1, h2, h3]
    simp [Pattern.Marshal, Json.get?, List.find?]

/-! ## Claims on unpack and pack -/

/-- C1: for every configuration the schema accepts, unpack returns a wire object,
and packing that object reproduces the configuration: written back into the
configuration it leaves it as it was, and written into any resource data it
yields the same `repo_name`, the same `config` set and the same `paths_config` set
(pattern list and `all_other_artifacts` included) and does not touch the id. -/
theorem pack_unpack_roundtrip (x : ResourceData) (hv : SchemaValid x) :
    ∃ w, unpackRepositoryConfig x = some w ∧
      packRepositoryConfig w x = (x, []) ∧
      ∀ d0 : ResourceData,
        (packRepositoryConfig w d0).1.repo_name = x.repo_name ∧
        (packRepositoryConfig w d0).1.config = x.config ∧
        (packRepositoryConfig w d0).1.paths_config = x.paths_config ∧
        (packRepositoryConfig w d0).1.id = d0.id ∧
        (packRepositoryConfig w d0).2 = [] := by
  refine ⟨_, unpackRepositoryConfig_eq x hv.head_all_other_artifacts, ?_, ?_⟩
  · have h1 := pack_unpackedRepoConfig x.config hv.2.1
    have h2 := pack_unpackedRepoPathsConfig x.paths_config hv.2.2.2.1
      (fun b hb => (hv.2.2.2.2.1 b hb).2.2.1)
    simp [packRepositoryConfig, ResourceData.Set_repo_name, ResourceData.Set_config,
      ResourceData.Set_paths_config, h1, h2]
  · intro d0
    have h1 := pack_unpackedRepoConfig x.config hv.2.1
    have h2 := pack_unpackedRepoPathsConfig x.paths_config hv.2.2.2.1
      (fun b hb => (hv.2.2.2.2.1 b hb).2.2.1)
    simp [packRepositoryConfig, ResourceData.Set_repo_name, ResourceData.Set_config,
      ResourceData.Set_paths_config, h1, h2]

/-- The round trip at the scenario of the specification. -/
theorem pack_unpack_roundtrip_witness :
    SchemaValid scenarioPathsConfig ∧
    ∃ w, unpackRepositoryConfig scenarioPathsConfig = some w ∧
      packRepositoryConfig w scenarioPathsConfig = (scenarioPathsConfig, []) :=
  have hv : SchemaValid scenarioPathsConfig := by decide
  ⟨hv, (pack_unpack_roundtrip scenarioPathsConfig hv).elim
    (fun w h => ⟨w, h.1, h.2.1⟩)⟩

/-- C8: for every configuration the schema accepts (so one that supplies at most
one of `config` and `paths_config`), unpack returns a wire object whose
`RepoConfig` is nil exactly when `config` is not supplied and whose
`RepoPathsConfig` is nil exactly when `paths_config` is not supplied; at most one
of the two is present, and the JSON body has the key `repo_config`
(`repo_paths_config`) exactly when the group is supplied. -/
theorem unpack_omits_unsupplied_groups (d : ResourceData) (hv : SchemaValid d) :
    ∃ w, unpackRepositoryConfig d = some w ∧
      (w.RepoConfig = none ↔ d.config = []) ∧
      (w.RepoPathsConfig = none ↔ d.paths_config = []) ∧
      (w.RepoConfig = none ∨ w.RepoPathsConfig = none) ∧
      (w.Marshal.hasKey "repo_config" = false ↔ d.config = []) ∧
      (w.Marshal.hasKey "repo_paths_config" = false ↔ d.paths_config = []) := by
  refine ⟨_, unpackRepositoryConfig_eq d hv.head_all_other_artifacts, ?_⟩
  have hne := hv.head_all_other_artifacts
  have hex := hv.2.2.2.2.2
  obtain ⟨id, rn, cfg, pcs⟩ := d
  have hc : unpackedRepoConfig cfg = none ↔ cfg = [] := by
    cases cfg <;> simp [unpackedRepoConfig]
  have hp : unpackedRepoPathsConfig pcs = none ↔ pcs = [] := by
    cases pcs with
    | nil => simp [unpackedRepoPathsConfig]
    | cons m ms =>
      have hm : m.all_other_artifacts ≠ [] := hne m (by simp)
      obtain ⟨pat, aoa⟩ := m
      cases aoa with
      | nil => exact absurd rfl hm
      | cons a as => simp [unpackedRepoPathsConfig]
  refine ⟨hc, hp, ?_, ?_, ?_⟩
  · rcases hex with h | h
    · exact Or.inl (hc.2 h)
    · exact Or.inr (hp.2 h)
  · simp only [Json.hasKey, marshal_get_repo_config]
    rw [← hc]
    cases unpackedRepoConfig cfg <;> simp
  · simp only [Json.hasKey, marshal_get_repo_paths_config]
    rw [← hp]
    cases unpackedRepoPathsConfig pcs <;> simp

/-- A flat configuration: the wire object has no `RepoPathsConfig`. -/
theorem unpack_omits_unsupplied_groups_witness :
    SchemaValid scenarioConfig ∧
    ∃ w, unpackRepositoryConfig scenarioConfig = some w ∧
      w.RepoPathsConfig = none ∧ w.Marshal.hasKey "repo_paths_config" = false :=
  have hv : SchemaValid scenarioConfig := by decide
  ⟨hv, (unpack_omits_unsupplied_groups scenarioConfig hv).elim
    (fun w h => ⟨w, h.1, h.2.2.1.2 rfl, h.2.2.2.2.2.2 rfl⟩)⟩

/-- C9: pack turns a nil `RepoConfiguration` and a nil `PathsConfiguration` into
the empty list, and every non-nil one, whatever its field values, into a list of
exactly one map that carries every field of the input, so that the two cases
never coincide. -/
theorem pack_nil_is_empty_and_present_is_singleton :
    packGeneralRepoConfig none = [] ∧
    packRepoPathsConfigList none = [] ∧
    (∀ c : RepoConfiguration,
      packGeneralRepoConfig (some c) =
        [{ vuln_contextual_analysis := c.VulnContextualAnalysis
           retention_in_days := c.RetentionInDays }] ∧
      packGeneralRepoConfig (some c) ≠ packGeneralRepoConfig none) ∧
    (∀ pc : PathsConfiguration,
      packRepoPathsConfigList (some pc) =
        [{ pattern := pc.Patterns.map Pattern.toBlock
           all_other_artifacts :=
             [{ index_new_artifacts := pc.OtherArtifacts.IndexNewArtifacts
                retention_in_days := pc.OtherArtifacts.RetentionInDays }] }] ∧
      packRepoPathsConfigList (some pc) ≠ packRepoPathsConfigList none) := by
  refine ⟨rfl, rfl, ?_, ?_⟩
  · intro c
    exact ⟨rfl, by simp [packGeneralRepoConfig]⟩
  · intro pc
    refine ⟨?_, by simp [packRepoPathsConfigList]⟩
    simp [packRepoPathsConfigList, packAllOtherArtifacts, packPatterns_eq_map]

/-- C10: for every configuration whose `paths_config` holds one block with a
pattern list of length at least 1 and one `all_other_artifacts` element `a`,
unpack returns a wire object whose `RepoPathsConfig` has as many patterns as the
list, the pattern at each index carrying the four fields of the list element at
that index, and `OtherArtifacts` equal to `a`; in the JSON body the paths
`repo_paths_config.patterns[i].include`, `.exclude`, `.index_new_artifacts` and
`.retention_in_days` and `repo_paths_config.all_other_artifacts` hold these
values. -/
theorem unpack_paths_config_keeps_patterns (d : ResourceData) (b : PathsConfigBlock)
    (a : AllOtherArtifactsBlock) (hd : d.paths_config = [b])
    (ha : b.all_other_artifacts = [a]) (hn : 1 ≤ b.pattern.length) :
    ∃ w pc, unpackRepositoryConfig d = some w ∧ w.RepoPathsConfig = some pc ∧
      pc.Patterns.length = b.pattern.length ∧
      pc.OtherArtifacts =
        { IndexNewArtifacts := a.index_new_artifacts
          RetentionInDays := a.retention_in_days } ∧
      w.Marshal.at? [Json.Step.key "repo_paths_config", Json.Step.key "all_other_artifacts"] =
        some (Json.obj [("index_new_artifacts", Json.bool a.index_new_artifacts),
                        ("retention_in_days", Json.num a.retention_in_days)]) ∧
      w.Marshal.at? [Json.Step.key "repo_paths_config", Json.Step.key "patterns"] =
        some (Json.arr (b.pattern.map (fun p => Pattern.Marshal p.toPattern))) ∧
      ∀ (i : Nat) (p : PatternBlock), b.pattern[i]? = some p →
        pc.Patterns[i]? =
          some { Include := p.include_
                 Exclude := p.exclude
                 IndexNewArtifacts := p.index_new_artifacts
                 RetentionInDays := p.retention_in_days } ∧
        w.Marshal.at? [Json.Step.key "repo_paths_config", Json.Step.key "patterns",
            Json.Step.index i, Json.Step.key "include"] = some (Json.str p.include_) ∧
        w.Marshal.at? [Json.Step.key "repo_paths_config", Json.Step.key "patterns",
            Json.Step.index i, Json.Step.key "exclude"] = some (Json.str p.exclude) ∧
        w.Marshal.at? [Json.Step.key "repo_paths_config", Json.Step.key "patterns",
            Json.Step.index i, Json.Step.key "index_new_artifacts"] =
          some (Json.bool p.index_new_artifacts) ∧
        w.Marshal.at? [Json.Step.key "repo_paths_config", Json.Step.key "patterns",
            Json.Step.index i, Json.Step.key "retention_in_days"] =
          some (Json.num p.retention_in_days) := by
  have hne : ∀ b' ∈ d.paths_config.head?, b'.all_other_artifacts ≠ [] := by
    intro b' hb'
    rw [hd] at hb'
    simp at hb'
    subst hb'
    rw [ha]; simp
  have hu := unpackRepositoryConfig_eq d hne
  have hpc : unpackedRepoPathsConfig d.paths_config =
      some { Patterns := b.pattern.map PatternBlock.toPattern
             OtherArtifacts :=
               { IndexNewArtifacts := a.index_new_artifacts
                 RetentionInDays := a.retention_in_days } } := by
    rw [hd]; simp [unpackedRepoPathsConfig, ha]
  have hpat : b.pattern.map PatternBlock.toPattern ≠ [] := by
    intro h0
    have h1 := congrArg List.length h0
    rw [List.length_map, List.length_nil] at h1
    omega
  refine ⟨_, _, hu, hpc, by simp, rfl, ?_, ?_, ?_⟩
  · simp only [Json.at?, marshal_get_repo_paths_config, hpc, Option.map_some',
      marshal_get_all_other_artifacts]
    rfl
  · have h2 := marshal_get_patterns
      { Patterns := b.pattern.map PatternBlock.toPattern
        OtherArtifacts :=
          { IndexNewArtifacts := a.index_new_artifacts
            RetentionInDays := a.retention_in_days } } hpat
    simp only [Json.at?, marshal_get_repo_paths_config, hpc, Option.map_some', h2,
      List.map_map]
    rfl
  · intro i p hi
    have hget : (b.pattern.map PatternBlock.toPattern)[i]? = some p.toPattern := by
      simp [List.getElem?_map, hi]
    exact ⟨hget, marshal_at_pattern_field _ _ hpc i p.toPattern hget⟩

/-- The scenario of the specification: `repo_paths_config.patterns[0].include`
is `pattern1`. -/
theorem unpack_paths_config_keeps_patterns_witness :
    ∃ w, unpackRepositoryConfig scenarioPathsConfig = some w ∧
      w.Marshal.at? [Json.Step.key "repo_paths_config", Json.Step.key "patterns",
          Json.Step.index 0, Json.Step.key "include"] = some (Json.str "pattern1") :=
  (unpack_paths_config_keeps_patterns scenarioPathsConfig
      { pattern :=
          [{ include_ := "pattern1", exclude := "pattern12",
             index_new_artifacts := true, retention_in_days := 90 }]
        all_other_artifacts := [{ index_new_artifacts := true, retention_in_days := 90 }] }
      { index_new_artifacts := true, retention_in_days := 90 } rfl rfl (by decide)).elim
    (fun w h => h.elim (fun _ h2 => ⟨w, h2.1, (h2.2.2.2.2.2.2 0 _ rfl).2.1⟩))

/-! ## Claims on the lifecycle -/

/-- C2, as stated, fails: a GET answered with status 404 and a nil error leaves
the identifier in place and returns no diagnostics. -/
theorem read_non200_without_error_keeps_id :
    (clientNotFoundNoError [] (HttpCall.Get "xray/api/v1/repos_config/{repo_name}" "repo")).resp
      = some { StatusCode := 404 } ∧
    (resourceXrayRepositoryConfigRead stateRepo clientNotFoundNoError []).d.id = "repo" ∧
    (resourceXrayRepositoryConfigRead stateRepo clientNotFoundNoError []).diags = [] := by
  refine ⟨rfl, rfl, rfl⟩

/-- C2, amended: for every Read whose GET returns an error together with a
response whose status is not 200, Read clears the identifier, leaves the other
fields as they were, returns that error as its diagnostics and makes no other
call; when the GET returns no error, Read keeps the identifier, whatever the
status. -/
theorem read_error_non200_clears_id (d : ResourceData) (m : Client) (calls : List HttpCall)
    (resp : Response) (e : String)
    (hresp : (m calls (HttpCall.Get "xray/api/v1/repos_config/{repo_name}" d.Id)).resp
      = some resp)
    (herr : (m calls (HttpCall.Get "xray/api/v1/repos_config/{repo_name}" d.Id)).err = some e)
    (hstatus : resp.StatusCode ≠ StatusOK) :
    (resourceXrayRepositoryConfigRead d m calls).d = d.SetId "" ∧
    (resourceXrayRepositoryConfigRead d m calls).d.id = "" ∧
    (resourceXrayRepositoryConfigRead d m calls).diags = diag.FromErr (some e) ∧
    (resourceXrayRepositoryConfigRead d m calls).diags =
      [{ Severity := diag.Severity.Error, Summary := e, Detail := "" }] ∧
    (resourceXrayRepositoryConfigRead d m calls).calls =
      calls ++ [HttpCall.Get "xray/api/v1/repos_config/{repo_name}" d.Id] ∧
    ∀ m0 : Client,
      (m0 calls (HttpCall.Get "xray/api/v1/repos_config/{repo_name}" d.Id)).err = none →
      (resourceXrayRepositoryConfigRead d m0 calls).d.id = d.id := by
  have hne : (resp.StatusCode != StatusOK) = true := by simpa using hstatus
  refine ⟨?_, ?_, ?_, ?_, ?_, ?_⟩
  · simp [resourceXrayRepositoryConfigRead, hresp, herr, hne]
  · simp [resourceXrayRepositoryConfigRead, hresp, herr, hne, ResourceData.SetId]
  · simp [resourceXrayRepositoryConfigRead, herr]
  · simp [resourceXrayRepositoryConfigRead, herr, diag.FromErr]
  · simp [resourceXrayRepositoryConfigRead, herr]
  · intro m0 h0
    simp [resourceXrayRepositoryConfigRead, h0, packRepositoryConfig,
      ResourceData.Set_repo_name, ResourceData.Set_config, ResourceData.Set_paths_config]

/-- A GET answered with status 404 and an error clears the id. -/
theorem read_error_non200_clears_id_witness :
    (resourceXrayRepositoryConfigRead stateRepo clientNotFound []).d.id = "" ∧
    (resourceXrayRepositoryConfigRead stateRepo clientNotFound []).diags =
      [{ Severity := diag.Severity.Error, Summary := "404 Not Found", Detail := "" }] :=
  have h := read_error_non200_clears_id stateRepo clientNotFound [] { StatusCode := 404 }
    "404 Not Found" rfl rfl (by decide)
  ⟨h.2.1, h.2.2.2.1⟩

/-- C3: for every resource state, every client and every history of calls, Delete
makes no HTTP call, sets the identifier to the empty string, leaves `repo_name`,
`config` and `paths_config` as they were, and returns exactly one diagnostic,
whose severity is Warning; the outcome does not depend on the client. -/
theorem delete_clears_id_and_warns (d : ResourceData) (m : Client) (calls : List HttpCall) :
    (resourceXrayRepositoryConfigDelete d m calls).calls = calls ∧
    (resourceXrayRepositoryConfigDelete d m calls).d.id = "" ∧
    (resourceXrayRepositoryConfigDelete d m calls).d.repo_name = d.repo_name ∧
    (resourceXrayRepositoryConfigDelete d m calls).d.config = d.config ∧
    (resourceXrayRepositoryConfigDelete d m calls).d.paths_config = d.paths_config ∧
    (resourceXrayRepositoryConfigDelete d m calls).diags.length = 1 ∧
    (∀ x ∈ (resourceXrayRepositoryConfigDelete d m calls).diags,
      x.Severity = diag.Severity.Warning ∧ x.Severity ≠ diag.Severity.Error) ∧
    ∀ m0 : Client,
      resourceXrayRepositoryConfigDelete d m0 calls =
        resourceXrayRepositoryConfigDelete d m calls := by
  refine ⟨rfl, rfl, rfl, rfl, rfl, rfl, ?_, fun _ => rfl⟩
  intro x hx
  simp [resourceXrayRepositoryConfigDelete] at hx
  subst hx
  exact ⟨rfl, by decide⟩

/-- C4: for every configuration the schema accepts, unpack returns a wire object
`w` whose name is the configuration's `repo_name`; Create sends `w` as the body of
its PUT, and when that PUT returns no error the outcome of Create is the outcome
of Read run on the state whose identifier is `repo_name`, after the PUT: the same
state, the same diagnostics, and the GET for `repo_name` as the next call. -/
theorem create_success_sets_id_then_reads (d : ResourceData) (hv : SchemaValid d) (m : Client)
    (calls : List HttpCall) :
    ∃ w, unpackRepositoryConfig d = some w ∧ w.RepoName = d.repo_name ∧
      ((m calls (HttpCall.Put "xray/api/v1/repos_config" w)).err = none →
        resourceXrayRepositoryConfigCreate d m calls =
          some (resourceXrayRepositoryConfigRead (d.SetId d.repo_name) m
            (calls ++ [HttpCall.Put "xray/api/v1/repos_config" w])) ∧
        (d.SetId d.repo_name).Id = d.repo_name ∧
        ∃ out, resourceXrayRepositoryConfigCreate d m calls = some out ∧
          out.diags =
            (resourceXrayRepositoryConfigRead (d.SetId d.repo_name) m
              (calls ++ [HttpCall.Put "xray/api/v1/repos_config" w])).diags ∧
          out.calls =
            calls ++ [HttpCall.Put "xray/api/v1/repos_config" w,
                      HttpCall.Get "xray/api/v1/repos_config/{repo_name}" d.repo_name]) := by
  have hu := unpackRepositoryConfig_eq d hv.head_all_other_artifacts
  refine ⟨_, hu, rfl, ?_⟩
  intro hput
  have hc : resourceXrayRepositoryConfigCreate d m calls =
      some (resourceXrayRepositoryConfigRead (d.SetId d.repo_name) m
        (calls ++ [HttpCall.Put "xray/api/v1/repos_config"
          { RepoName := d.repo_name
            RepoConfig := unpackedRepoConfig d.config
            RepoPathsConfig := unpackedRepoPathsConfig d.paths_config }])) := by
    simp [resourceXrayRepositoryConfigCreate, hu, hput]
  refine ⟨hc, rfl, _, hc, rfl, ?_⟩
  unfold resourceXrayRepositoryConfigRead
  simp only [ResourceData.Id, ResourceData.SetId]
  split <;> simp

/-- Create against a remote that accepts the PUT: the id is the repository name,
no diagnostics, two calls. -/
theorem create_success_sets_id_then_reads_witness :
    SchemaValid scenarioConfig ∧
    ∃ out, resourceXrayRepositoryConfigCreate scenarioConfig clientOK [] = some out ∧
      out.d.id = "repo" ∧ out.diags = [] ∧ out.calls.length = 2 := by
  have hv : SchemaValid scenarioConfig := by decide
  obtain ⟨w, _, _, h⟩ := create_success_sets_id_then_reads scenarioConfig hv clientOK []
  obtain ⟨hc, _, _⟩ := h rfl
  exact ⟨hv, _, hc, rfl, rfl, rfl⟩

/-- C5, as stated, fails: a PUT answered with status 500 and a nil error is no
failure to Create, which discards the response: it sets the identifier to the
repository name and performs the Read, whose GET (also 500 with a nil error)
overwrites the three fields with those of the empty remote object. -/
theorem create_non2xx_without_error_sets_id :
    (clientServerErrorNoError []
      (HttpCall.Put "xray/api/v1/repos_config"
        { RepoName := "repo"
          RepoConfig := some { VulnContextualAnalysis := true, RetentionInDays := 90 }
          RepoPathsConfig := none })).resp = some { StatusCode := 500 } ∧
    scenarioConfig.id = "" ∧
    resourceXrayRepositoryConfigCreate scenarioConfig clientServerErrorNoError [] =
      some { d := { id := "repo", repo_name := "", config := [], paths_config := [] }
             diags := []
             calls :=
               [HttpCall.Put "xray/api/v1/repos_config"
                  { RepoName := "repo"
                    RepoConfig := some { VulnContextualAnalysis := true, RetentionInDays := 90 }
                    RepoPathsConfig := none },
                HttpCall.Get "xray/api/v1/repos_config/{repo_name}" "repo"] } := by
  refine ⟨rfl, rfl, rfl⟩

/-- C5, amended: for every configuration the schema accepts, when the PUT that
Create issues with the unpacked configuration returns an error, Create returns
that error as its diagnostics, leaves the resource data exactly as it was (so the
identifier is not set) and makes no call after the PUT (so no Read); when the PUT
returns no error, whatever the status of its response, Create sets the identifier
and performs the Read. -/
theorem create_failure_keeps_state (d : ResourceData) (hv : SchemaValid d) (m : Client)
    (calls : List HttpCall) :
    ∃ w, unpackRepositoryConfig d = some w ∧
      (∀ e : String, (m calls (HttpCall.Put "xray/api/v1/repos_config" w)).err = some e →
        resourceXrayRepositoryConfigCreate d m calls =
          some { d := d
                 diags := [{ Severity := diag.Severity.Error, Summary := e, Detail := "" }]
                 calls := calls ++ [HttpCall.Put "xray/api/v1/repos_config" w] }) ∧
      ((m calls (HttpCall.Put "xray/api/v1/repos_config" w)).err = none →
        resourceXrayRepositoryConfigCreate d m calls =
          some (resourceXrayRepositoryConfigRead (d.SetId d.repo_name) m
            (calls ++ [HttpCall.Put "xray/api/v1/repos_config" w]))) := by
  have hu := unpackRepositoryConfig_eq d hv.head_all_other_artifacts
  refine ⟨_, hu, ?_, ?_⟩
  · intro e he
    simp [resourceXrayRepositoryConfigCreate, hu, he, diag.FromErr]
  · intro he
    simp [resourceXrayRepositoryConfigCreate, hu, he]

/-- Create against an unreachable remote: the state is kept, the error returned,
one call made. -/
theorem create_failure_keeps_state_witness :
    SchemaValid scenarioConfig ∧
    ∃ out, resourceXrayRepositoryConfigCreate scenarioConfig clientUnreachable [] = some out ∧
      out.d = scenarioConfig ∧
      out.diags =
        [{ Severity := diag.Severity.Error, Summary := "connection refused", Detail := "" }] ∧
      out.calls.length = 1 :=
  have hv : SchemaValid scenarioConfig := by decide
  ⟨hv, (create_failure_keeps_state scenarioConfig hv clientUnreachable []).elim
    (fun _ h => ⟨_, h.2.1 "connection refused" rfl, rfl, rfl, rfl⟩)⟩

/-! ## Claims on validation -/

theorem validate_config_of_both (s : schema.Schema) (d : ResourceData)
    (hs : s.ConflictsWith = ["paths_config"]) (hc : d.config ≠ []) (hp : d.paths_config ≠ []) :
    validate "config" s d = [conflictDiagnostic] := by
  have h1 : d.isSet "config" = true := by
    cases hcfg : d.config with
    | nil => exact absurd hcfg hc
    | cons a as => simp [ResourceData.isSet, hcfg]
  have h2 : d.isSet "paths_config" = true := by
    cases hpc : d.paths_config with
    | nil => exact absurd hpc hp
    | cons a as => simp [ResourceData.isSet, hpc]
  simp [validate, validateConflictingAttributes, h1, h2, hs, conflictDiagnostic]

theorem validate_no_conflict (k : String) (s : schema.Schema) (d : ResourceData)
    (hs : s.ConflictsWith = []) :
    ∀ x ∈ validate k s d, x.Summary ≠ "Conflicting configuration arguments" := by
  intro x hx
  unfold validate at hx
  simp only [validateConflictingAttributes, hs, List.find?_nil] at hx
  split at hx
  · split at hx
    · simp at hx
      subst hx
      show "Missing required argument" ≠ "Conflicting configuration arguments"
      decide
    · simp at hx
  · simp at hx

/-- C6, as stated, fails: the schema declares the conflict on `config` only
(`paths_config` has an empty `ConflictsWith`), and the error that validation
returns for a configuration supplying both blocks reads
`"config": conflicts with paths_config`, which does not contain "Only one of". -/
theorem conflict_declared_on_config_only :
    (repositoryConfigSchema.lookup "config").map (fun s => s.ConflictsWith)
      = some ["paths_config"] ∧
    (repositoryConfigSchema.lookup "paths_config").map (fun s => s.ConflictsWith)
      = some [] ∧
    Validate repositoryConfigSchema scenarioBoth =
      [{ Severity := diag.Severity.Error
         Summary := "Conflicting configuration arguments"
         Detail := "\"config\": conflicts with paths_config" }] ∧
    ¬ containsText "\"config\": conflicts with paths_config" "Only one of" ∧
    ¬ containsText "Conflicting configuration arguments" "Only one of" := by
  refine ⟨by decide, by decide, by decide, by decide, by decide⟩

/-- C6, amended: for every configuration that supplies both `config` and
`paths_config`, and in whatever order the keys of the declared schema are
visited, validation returns the error `"config": conflicts with paths_config`,
which names both fields, and no other conflict error; the host then returns the
validation diagnostics without unpacking, without any HTTP call and without
changing the resource data.  The conflict is declared on `config` only. -/
theorem both_groups_rejected_before_create (d : ResourceData) (hc : d.config ≠ [])
    (hp : d.paths_config ≠ []) (sm : List (String × schema.Schema))
    (hperm : sm.Perm repositoryConfigSchema) (m : Client) (calls : List HttpCall) :
    conflictDiagnostic ∈ Validate sm d ∧
    (∀ x ∈ Validate sm d,
      x.Summary = "Conflicting configuration arguments" → x = conflictDiagnostic) ∧
    validateThenCreate sm d m calls =
      some { d := d, diags := Validate sm d, calls := calls } ∧
    containsText conflictDiagnostic.Detail "config" ∧
    containsText conflictDiagnostic.Detail "paths_config" := by
  have hmem : ∀ ks, ks ∈ sm ↔ ks ∈ repositoryConfigSchema := fun ks => hperm.mem_iff
  have hcfg := validate_config_of_both
    { Type_ := schema.ValueType.TypeSet, Required := false, Optional := true,
      MaxItems := 1, ConflictsWith := ["paths_config"] } d rfl hc hp
  have hin : conflictDiagnostic ∈ Validate sm d := by
    unfold Validate
    rw [List.mem_flatMap]
    refine ⟨("config",
      { Type_ := schema.ValueType.TypeSet, Required := false, Optional := true,
        MaxItems := 1, ConflictsWith := ["paths_config"] }), (hmem _).2 ?_, ?_⟩
    · simp [repositoryConfigSchema]
    · show conflictDiagnostic ∈ validate "config" _ d
      rw [hcfg]
      simp
  refine ⟨hin, ?_, ?_, by decide, by decide⟩
  · intro x hx hsum
    unfold Validate at hx
    rw [List.mem_flatMap] at hx
    obtain ⟨ks, hks, hxv⟩ := hx
    have hks2 := (hmem ks).1 hks
    simp only [repositoryConfigSchema, List.mem_cons, List.mem_singleton, List.not_mem_nil,
      or_false] at hks2
    rcases hks2 with h | h | h
    · subst h
      exact absurd hsum (validate_no_conflict _ _ d rfl x hxv)
    · subst h
      have hxv2 : x ∈ validate "config" _ d := hxv
      rw [hcfg] at hxv2
      simpa using hxv2
    · subst h
      exact absurd hsum (validate_no_conflict _ _ d rfl x hxv)
  · unfold validateThenCreate
    have hany : (Validate sm d).any (fun x => x.Severity == diag.Severity.Error) = true := by
      rw [List.any_eq_true]
      exact ⟨conflictDiagnostic, hin, by decide⟩
    simp [hany]

/-- A configuration with both blocks is returned with the validation diagnostics
and no call. -/
theorem both_groups_rejected_before_create_witness :
    validateThenCreate repositoryConfigSchema scenarioBoth clientOK [] =
      some { d := scenarioBoth
             diags := Validate repositoryConfigSchema scenarioBoth
             calls := [] } :=
  (both_groups_rejected_before_create scenarioBoth (by decide) (by decide)
    repositoryConfigSchema (List.Perm.refl _) clientOK []).2.2.1

/-! ## Claims on report filters -/

theorem containsText_only_one_of (rest : String) :
    containsText ("Only one of " ++ rest) "Only one of" := by
  unfold containsText
  rw [String.data_append]
  exact ⟨[], ' ' :: rest.data, by simp⟩

theorem validateExclusiveGroups_of_suppliesBoth (groups : List (List String))
    (cfg : FilterFields) (h : suppliesBoth groups cfg) :
    ∃ msg, validateExclusiveGroups groups cfg = some msg ∧ containsText msg "Only one of" := by
  obtain ⟨b, hb, g, hg, hlen⟩ := h
  have hmem : suppliedMembers g b ∈ exclusiveViolations groups cfg := by
    unfold exclusiveViolations
    rw [List.mem_flatMap]
    refine ⟨b, hb, ?_⟩
    rw [List.mem_filter]
    exact ⟨List.mem_map.2 ⟨g, hg, rfl⟩, by simpa using hlen⟩
  unfold validateExclusiveGroups
  cases hv : exclusiveViolations groups cfg with
  | nil => rw [hv] at hmem; simp at hmem
  | cons ms rest =>
    refine ⟨_, rfl, ?_⟩
    rw [String.append_assoc]
    exact containsText_only_one_of _

theorem suppliesBoth_of_mem (g : List String) (table : List (List String))
    (cfg : FilterFields) (hg : g ∈ table) (h : suppliesBoth [g] cfg) :
    suppliesBoth table cfg := by
  obtain ⟨b, hb, g0, hg0, hlen⟩ := h
  have : g0 = g := by simpa using hg0
  subst this
  exact ⟨b, hb, g0, hg, hlen⟩

theorem testPasses_false_of_suppliesBoth (table : List (List String)) (t : FilterTest)
    (ht : t.expectError = none) (h : suppliesBoth table t.filterFields) :
    testPasses (validateExclusiveGroups table) t = false := by
  obtain ⟨msg, hmsg, _⟩ := validateExclusiveGroups_of_suppliesBoth table t.filterFields h
  unfold testPasses
  rw [ht, hmsg]

/-- C7, as stated, fails: the fixture `violationsFilterFields` supplies `issue_id`
together with `cvss_score` in its `security_filters` block, and
`vulnerabilitiesFilterFields` supplies `cve` together with `cvss_score`, yet
`TestAccViolationsReport` and `TestAccVulnerabilitiesReport` expect these
configurations to apply without error; a validator that enforces the pairs of the
claim fails both tests, and no validator, even one that differs from resource to
resource, meets the tests of the repository and the claim at once. -/
theorem claimed_groups_contradict_positive_tests :
    TestAccViolationsReport.expectError = none ∧
    TestAccViolationsReport.filterFields = violationsFilterFields ∧
    (∃ b ∈ violationsFilterFields, "issue_id" ∈ b.keys ∧ "cvss_score" ∈ b.keys) ∧
    suppliesBoth claimedGroups violationsFilterFields ∧
    testPasses (validateExclusiveGroups claimedGroups) TestAccViolationsReport = false ∧
    TestAccVulnerabilitiesReport.expectError = none ∧
    (∃ b ∈ vulnerabilitiesFilterFields, "cve" ∈ b.keys ∧ "cvss_score" ∈ b.keys) ∧
    suppliesBoth claimedGroups vulnerabilitiesFilterFields ∧
    testPasses (validateExclusiveGroups claimedGroups) TestAccVulnerabilitiesReport = false ∧
    ¬ ∃ v : String → FilterFields → Option String,
        (∀ t ∈ filterTests, testPasses (v t.resourceName) t = true) ∧
        (∀ r ∈ claimedResources, ∀ cfg, suppliesBoth claimedGroups cfg →
          ∃ msg, v r cfg = some msg ∧ containsText msg "Only one of") := by
  have hs : suppliesBoth claimedGroups violationsFilterFields := by decide
  refine ⟨rfl, rfl, by decide, hs, by decide, rfl, by decide, by decide, by decide, ?_⟩
  rintro ⟨v, hpass, hclaim⟩
  obtain ⟨msg, hmsg, _⟩ :=
    hclaim "xray_violations_report" (by simp [claimedResources]) violationsFilterFields hs
  have ht := hpass TestAccViolationsReport (by simp [filterTests])
  unfold testPasses at ht
  have hv : v TestAccViolationsReport.resourceName TestAccViolationsReport.filterFields
      = some msg := hmsg
  have he : TestAccViolationsReport.expectError = none := rfl
  rw [hv, he] at ht
  simp at ht

/-- C7, amended: the pairs of the claim stand except `issue_id` with `cvss_score`
in a violations report and `cve` with `cvss_score` in a vulnerabilities report.
For every licenses, violations or vulnerabilities report configuration in which
one block supplies both members of a remaining pair, the validator returns an
error containing "Only one of" and creation returns that error without sending
anything.  With these tables the validator meets every filter test of the
repository, and each pair taken out is one that a passing test of that resource
supplies together, so that no table holding it meets that test. -/
theorem exclusive_filter_groups_rejected (r : String) (cfg : FilterFields)
    (post : FilterFields → Option String) (hr : r ∈ claimedResources)
    (h : suppliesBoth (amendedGroups r) cfg) :
    (∃ msg, validateExclusiveGroups (amendedGroups r) cfg = some msg ∧
      containsText msg "Only one of" ∧
      createReport (amendedGroups r) cfg post =
        { diags := [{ Severity := diag.Severity.Error, Summary := msg, Detail := "" }]
          posted := [] }) ∧
    ((r = "xray_licenses_report" ∧ amendedGroups r = claimedGroups) ∨
     (r = "xray_violations_report" ∧
       amendedGroups r =
         [["license_names", "license_patterns"], ["watch_names", "watch_patterns"],
          ["cve", "cvss_score"], ["severities", "cvss_score"]]) ∨
     (r = "xray_vulnerabilities_report" ∧
       amendedGroups r =
         [["license_names", "license_patterns"], ["watch_names", "watch_patterns"],
          ["issue_id", "cvss_score"], ["severities", "cvss_score"]])) ∧
    (∀ t ∈ filterTests,
      testPasses (validateExclusiveGroups (amendedGroups t.resourceName)) t = true) ∧
    (∀ r0 ∈ claimedResources, ∀ g ∈ claimedGroups, g ∉ amendedGroups r0 →
      ∃ t ∈ filterTests, t.resourceName = r0 ∧ t.expectError = none ∧
        ∀ table : List (List String), g ∈ table →
          testPasses (validateExclusiveGroups table) t = false) := by
  refine ⟨?_, ?_, by decide, ?_⟩
  · obtain ⟨msg, hmsg, hc⟩ := validateExclusiveGroups_of_suppliesBoth (amendedGroups r) cfg h
    exact ⟨msg, hmsg, hc, by simp [createReport, hmsg, diag.FromErr]⟩
  · simp only [claimedResources, List.mem_cons, List.mem_singleton, List.not_mem_nil,
      or_false] at hr
    rcases hr with hr | hr | hr
    · exact Or.inl ⟨hr, by subst hr; decide⟩
    · exact Or.inr (Or.inl ⟨hr, by subst hr; decide⟩)
    · exact Or.inr (Or.inr ⟨hr, by subst hr; decide⟩)
  · have hdec : ∀ r0 ∈ claimedResources, ∀ g ∈ claimedGroups, g ∉ amendedGroups r0 →
        ∃ t ∈ filterTests, t.resourceName = r0 ∧ t.expectError = none ∧
          suppliesBoth [g] t.filterFields := by decide
    intro r0 hr0 g hg hnot
    obtain ⟨t, ht, hname, hexp, hsup⟩ := hdec r0 hr0 g hg hnot
    exact ⟨t, ht, hname, hexp, fun table hmem =>
      testPasses_false_of_suppliesBoth table t hexp
        (suppliesBoth_of_mem g table t.filterFields hmem hsup)⟩

/-- The fixture of `TestAccBadLicenseFilter` is rejected and nothing is sent. -/
theorem exclusive_filter_groups_rejected_witness :
    suppliesBoth (amendedGroups "xray_licenses_report") badLicenseFilterFields ∧
    (createReport (amendedGroups "xray_licenses_report") badLicenseFilterFields
      (fun _ => none)).posted = [] ∧
    (createReport (amendedGroups "xray_licenses_report") badLicenseFilterFields
      (fun _ => none)).diags ≠ [] := by
  have hs : suppliesBoth (amendedGroups "xray_licenses_report") badLicenseFilterFields := by
    decide
  obtain ⟨⟨msg, _, _, hc⟩, _⟩ :=
    exclusive_filter_groups_rejected "xray_licenses_report" badLicenseFilterFields
      (fun _ => none) (by decide) hs
  exact ⟨hs, by rw [hc], by rw [hc]; simp⟩

/-! ## Claims on Read, presence, the JSON body, the inverse and totality -/

/-- C11: for every Read whose GET returns no error and decodes the remote object
`r`, Read leaves the identifier as it was, sets `repo_name`, `config` and
`paths_config` to `r.RepoName`, `packGeneralRepoConfig r.RepoConfig` and
`packRepoPathsConfigList r.RepoPathsConfig`, returns no diagnostics and makes no
call other than the GET. -/
theorem read_success_packs_remote_state (d : ResourceData) (m : Client)
    (calls : List HttpCall) (r : RepositoryConfiguration)
    (herr : (m calls (HttpCall.Get "xray/api/v1/repos_config/{repo_name}" d.Id)).err = none)
    (hres : (m calls (HttpCall.Get "xray/api/v1/repos_config/{repo_name}" d.Id)).result
      = some r) :
    (resourceXrayRepositoryConfigRead d m calls).d =
      { id := d.id
        repo_name := r.RepoName
        config := packGeneralRepoConfig r.RepoConfig
        paths_config := packRepoPathsConfigList r.RepoPathsConfig } ∧
    (resourceXrayRepositoryConfigRead d m calls).d.id = d.id ∧
    (resourceXrayRepositoryConfigRead d m calls).d = (packRepositoryConfig r d).1 ∧
    (resourceXrayRepositoryConfigRead d m calls).diags = [] ∧
    (resourceXrayRepositoryConfigRead d m calls).calls =
      calls ++ [HttpCall.Get "xray/api/v1/repos_config/{repo_name}" d.Id] := by
  refine ⟨?_, ?_, ?_, ?_, ?_⟩ <;>
    simp [resourceXrayRepositoryConfigRead, herr, hres, packRepositoryConfig,
      ResourceData.Set_repo_name, ResourceData.Set_config, ResourceData.Set_paths_config]

/-- A Read against a remote holding a flat configuration for `repo`. -/
theorem read_success_packs_remote_state_witness :
    (resourceXrayRepositoryConfigRead stateRepo clientOK []).d =
      { id := "repo"
        repo_name := "repo"
        config := [{ vuln_contextual_analysis := true, retention_in_days := 90 }]
        paths_config := [] } ∧
    (resourceXrayRepositoryConfigRead stateRepo clientOK []).diags = [] :=
  have h := read_success_packs_remote_state stateRepo clientOK []
    { RepoName := "repo"
      RepoConfig := some { VulnContextualAnalysis := true, RetentionInDays := 90 }
      RepoPathsConfig := none } rfl rfl
  ⟨h.1, h.2.2.2.1⟩

/-- C12: for every boolean `b` and integer `n`, a configuration the schema accepts
(so `n` is at least 0) whose `config` block holds `vuln_contextual_analysis = b`
and `retention_in_days = n` counts as having `config` set, also for `b = false`
and `n = 0`: `GetOk` reports it and unpack returns a present `RepoConfig` carrying
exactly `b` and `n`.  Among the configurations the schema accepts, `RepoConfig` is
absent only when `config` is not supplied. -/
theorem config_presence_not_truthiness (d : ResourceData) (b : Bool) (n : Int)
    (hv : SchemaValid d)
    (hc : d.config = [{ vuln_contextual_analysis := b, retention_in_days := n }]) :
    0 ≤ n ∧
    d.GetOk_config.2 = true ∧
    (∃ w, unpackRepositoryConfig d = some w ∧
      w.RepoConfig = some { VulnContextualAnalysis := b, RetentionInDays := n }) ∧
    ∀ d0 : ResourceData, SchemaValid d0 →
      ∃ w0, unpackRepositoryConfig d0 = some w0 ∧ (w0.RepoConfig = none ↔ d0.config = []) := by
  refine ⟨?_, ?_, ?_, ?_⟩
  · have h := hv.2.2.1 { vuln_contextual_analysis := b, retention_in_days := n }
      (by rw [hc]; simp)
    exact h
  · simp [ResourceData.GetOk_config, hc]
  · refine ⟨_, unpackRepositoryConfig_eq d hv.head_all_other_artifacts, ?_⟩
    simp [hc, unpackedRepoConfig]
  · intro d0 hv0
    refine ⟨_, unpackRepositoryConfig_eq d0 hv0.head_all_other_artifacts, ?_⟩
    cases h0 : d0.config <;> simp [unpackedRepoConfig]

/-- The block with `false` and `0` is present in the wire object. -/
theorem config_presence_not_truthiness_witness :
    SchemaValid scenarioZeroConfig ∧
    ∃ w, unpackRepositoryConfig scenarioZeroConfig = some w ∧
      w.RepoConfig = some { VulnContextualAnalysis := false, RetentionInDays := 0 } :=
  have hv : SchemaValid scenarioZeroConfig := by decide
  ⟨hv, (config_presence_not_truthiness scenarioZeroConfig false 0 hv rfl).2.2.1⟩

/-- C13: for every wire object with `RepoConfig` present, the `repo_config`
object of the JSON body has the key `vuln_contextual_analysis` exactly when the
value is `true` and the key `retention_in_days` exactly when the value is not 0,
each with the value of the field; every `Pattern` and every `AllOtherArtifacts`
carries all of its keys whatever the values, `false` and `0` included, and
`all_other_artifacts` is always a member of `repo_paths_config`. -/
theorem repo_config_json_omits_zero_values (w : RepositoryConfiguration)
    (rc : RepoConfiguration) (hrc : w.RepoConfig = some rc) :
    (∃ j, w.Marshal.get? "repo_config" = some j ∧
      (j.hasKey "vuln_contextual_analysis" = true ↔ rc.VulnContextualAnalysis = true) ∧
      (j.hasKey "retention_in_days" = true ↔ rc.RetentionInDays ≠ 0) ∧
      (rc.VulnContextualAnalysis = true →
        j.get? "vuln_contextual_analysis" = some (Json.bool true)) ∧
      (rc.RetentionInDays ≠ 0 →
        j.get? "retention_in_days" = some (Json.num rc.RetentionInDays))) ∧
    (∀ p : Pattern,
      p.Marshal.get? "include" = some (Json.str p.Include) ∧
      p.Marshal.get? "exclude" = some (Json.str p.Exclude) ∧
      p.Marshal.get? "index_new_artifacts" = some (Json.bool p.IndexNewArtifacts) ∧
      p.Marshal.get? "retention_in_days" = some (Json.num p.RetentionInDays)) ∧
    (∀ a : AllOtherArtifacts,
      a.Marshal.get? "index_new_artifacts" = some (Json.bool a.IndexNewArtifacts) ∧
      a.Marshal.get? "retention_in_days" = some (Json.num a.RetentionInDays)) ∧
    (∀ pc : PathsConfiguration,
      pc.Marshal.get? "all_other_artifacts" = some pc.OtherArtifacts.Marshal) := by
  refine ⟨⟨rc.Marshal, ?_, ?_, ?_, ?_, ?_⟩, ?_, ?_, marshal_get_all_other_artifacts⟩
  · rw [marshal_get_repo_config, hrc]; rfl
  · obtain ⟨v, n⟩ := rc
    cases v <;> by_cases hn : n = 0 <;>
      simp [RepoConfiguration.Marshal, Json.hasKey, Json.get?, List.find?, hn]
  · obtain ⟨v, n⟩ := rc
    cases v <;> by_cases hn : n = 0 <;>
      simp [RepoConfiguration.Marshal, Json.hasKey, Json.get?, List.find?, hn]
  · intro hvc
    obtain ⟨v, n⟩ := rc
    simp only at hvc
    subst hvc
    by_cases hn : n = 0 <;>
      simp [RepoConfiguration.Marshal, Json.get?, List.find?, hn]
  · intro hn
    obtain ⟨v, n⟩ := rc
    simp only [ne_eq] at hn
    cases v <;> simp [RepoConfiguration.Marshal, Json.get?, List.find?, hn]
  · intro p
    refine ⟨?_, ?_, ?_, ?_⟩ <;> simp [Pattern.Marshal, Json.get?, List.find?]
  · intro a
    refine ⟨?_, ?_⟩ <;> simp [AllOtherArtifacts.Marshal, Json.get?, List.find?]

/-- A `config` block with `retention_in_days = 0`, which the schema accepts,
unpacks to a wire object whose `repo_config` has neither key. -/
theorem repo_config_json_omits_zero_values_witness :
    SchemaValid scenarioZeroConfig ∧
    unpackRepositoryConfig scenarioZeroConfig =
      some { RepoName := "repo"
             RepoConfig := some { VulnContextualAnalysis := false, RetentionInDays := 0 }
             RepoPathsConfig := none } ∧
    ∃ j, (RepositoryConfiguration.Marshal
        { RepoName := "repo"
          RepoConfig := some { VulnContextualAnalysis := false, RetentionInDays := 0 }
          RepoPathsConfig := none }).get? "repo_config" = some j ∧
      j.hasKey "retention_in_days" = false ∧
      j.hasKey "vuln_contextual_analysis" = false := by
  refine ⟨by decide, rfl, ?_⟩
  obtain ⟨⟨j, hj, hv, hr, _, _⟩, _⟩ := repo_config_json_omits_zero_values
    { RepoName := "repo"
      RepoConfig := some { VulnContextualAnalysis := false, RetentionInDays := 0 }
      RepoPathsConfig := none }
    { VulnContextualAnalysis := false, RetentionInDays := 0 } rfl
  refine ⟨j, hj, ?_, ?_⟩
  · cases hk : j.hasKey "retention_in_days"
    · rfl
    · exact absurd rfl (hr.1 hk)
  · cases hk : j.hasKey "vuln_contextual_analysis"
    · rfl
    · exact absurd (hv.1 hk) (by decide)

/-- C14: for every wire object `w`, with `RepoConfig` nil or present and
`RepoPathsConfig` nil or present with any pattern list, and for every resource
data it is packed into, pack returns no diagnostics and unpack of the state it
wrote returns `w`: the same `RepoName`, `RepoConfig` and `RepoPathsConfig`,
patterns in order.  A list stands for both the nil and the empty slice. -/
theorem unpack_pack_roundtrip (w : RepositoryConfiguration) (d0 : ResourceData) :
    unpackRepositoryConfig (packRepositoryConfig w d0).1 = some w ∧
    (packRepositoryConfig w d0).2 = [] ∧
    (packRepositoryConfig w d0).1.id = d0.id := by
  refine ⟨?_, rfl, rfl⟩
  obtain ⟨name, rc, pc⟩ := w
  have hne : ∀ b ∈ (packRepositoryConfig
      { RepoName := name, RepoConfig := rc, RepoPathsConfig := pc } d0).1.paths_config.head?,
      b.all_other_artifacts ≠ [] := by
    intro b hb
    cases pc with
    | none => simp [packRepositoryConfig, ResourceData.Set_paths_config,
        packRepoPathsConfigList] at hb
    | some q =>
      simp [packRepositoryConfig, ResourceData.Set_paths_config,
        packRepoPathsConfigList] at hb
      subst hb
      simp [packAllOtherArtifacts]
  rw [unpackRepositoryConfig_eq _ hne]
  have h1 : unpackedRepoConfig (packGeneralRepoConfig rc) = rc := by
    cases rc <;> rfl
  have h2 : unpackedRepoPathsConfig (packRepoPathsConfigList pc) = pc := by
    cases pc with
    | none => rfl
    | some q =>
      have hp : (packPatterns q.Patterns).map PatternBlock.toPattern = q.Patterns := by
        rw [← unpackPattern_eq_map]; exact unpackPattern_packPatterns q.Patterns
      simp [packRepoPathsConfigList, unpackedRepoPathsConfig, packAllOtherArtifacts, hp]
  simp [packRepositoryConfig, ResourceData.Set_repo_name, ResourceData.Set_config,
    ResourceData.Set_paths_config, h1, h2]

/-- C15: for every configuration the declared schema accepts, unpack returns a
wire object, so no `List()[0]` is out of range: `unpackRepoConfig` and
`unpackRepoPathConfig` return when `GetOk` lets them run and
`unpackAllOtherArtifacts` returns on the set of every `paths_config` block.
`unpackRepoPathConfig` returns nil on an empty set without indexing it, while
`unpackAllOtherArtifacts` indexes every non-nil set and panics exactly on the
empty one, which `MinItems: 1` excludes: a `paths_config` block with no
`all_other_artifacts` makes unpack panic. -/
theorem unpack_total_on_schema_valid (d : ResourceData) (hv : SchemaValid d) :
    (∃ w, unpackRepositoryConfig d = some w) ∧
    (d.GetOk_config.2 = true → ∃ p, unpackRepoConfig d.Get_config = some p) ∧
    (d.GetOk_paths_config.2 = true →
      ∃ p, unpackRepoPathConfig d.Get_paths_config = some p) ∧
    (∀ b ∈ d.paths_config,
      ∃ a, unpackAllOtherArtifacts (some b.all_other_artifacts) = some a) ∧
    unpackRepoPathConfig (some []) = some none ∧
    (∀ l : List AllOtherArtifactsBlock,
      unpackAllOtherArtifacts (some l) = none ↔ l = []) ∧
    ¬ SchemaValid scenarioNoOtherArtifacts ∧
    unpackRepositoryConfig scenarioNoOtherArtifacts = none := by
  have haoa : ∀ l : List AllOtherArtifactsBlock,
      unpackAllOtherArtifacts (some l) = none ↔ l = [] := by
    intro l
    cases l <;> simp [unpackAllOtherArtifacts]
  have hblock : ∀ b ∈ d.paths_config,
      ∃ a, unpackAllOtherArtifacts (some b.all_other_artifacts) = some a := by
    intro b hb
    have hlen := (hv.2.2.2.2.1 b hb).2.2.1
    cases hl : b.all_other_artifacts with
    | nil => rw [hl] at hlen; simp at hlen
    | cons a as =>
      exact ⟨{ IndexNewArtifacts := a.index_new_artifacts
               RetentionInDays := a.retention_in_days }, by simp [unpackAllOtherArtifacts]⟩
  refine ⟨⟨_, unpackRepositoryConfig_eq d hv.head_all_other_artifacts⟩, ?_, ?_, hblock,
    rfl, haoa, by decide, rfl⟩
  · intro hok
    cases hc : d.config with
    | nil => simp [ResourceData.GetOk_config, hc] at hok
    | cons c cs =>
      exact ⟨some { VulnContextualAnalysis := c.vuln_contextual_analysis
                    RetentionInDays := c.retention_in_days },
        by simp [ResourceData.Get_config, hc, unpackRepoConfig]⟩
  · intro hok
    cases hp : d.paths_config with
    | nil => simp [ResourceData.GetOk_paths_config, hp] at hok
    | cons b bs =>
      obtain ⟨a, ha⟩ := hblock b (by rw [hp]; simp)
      exact ⟨some { Patterns := unpackPattern b.pattern, OtherArtifacts := a },
        by simp [ResourceData.Get_paths_config, hp, unpackRepoPathConfig, ha]⟩

/-- The scenario of the specification unpacks without a panic. -/
theorem unpack_total_on_schema_valid_witness :
    SchemaValid scenarioPathsConfig ∧
    ∃ w, unpackRepositoryConfig scenarioPathsConfig = some w :=
  have hv : SchemaValid scenarioPathsConfig := by decide
  ⟨hv, (unpack_total_on_schema_valid scenarioPathsConfig hv).1⟩

end Xray
